import Mathlib

/-!
Verification of `bufbuild/interrupt-go` (`interrupt.go`).

The package exposes one operation:

  func Handle(ctx context.Context) context.Context {
    ctx, cancel := signal.NotifyContext(ctx, Signals...)
    go func() {
      <-ctx.Done()
      cancel()
    }()
    return ctx
  }

We give a shallow embedding as a labelled transition system over the state of
one `Handle` call: the parent context's done flag, the derived context's done
flag, whether the signal-listener registration created by
`signal.NotifyContext` is still installed, whether the background waiter
goroutine is still alive, and counters of signals intercepted by the
registration versus signals that fell through to platform default handling.

Semantics of the Go standard library pieces used by the source:
  * `signal.NotifyContext(parent, sigs...)` installs a signal registration and
    returns a child context that is done as soon as the parent is done, a
    matching signal is delivered while the registration is installed, or the
    returned `cancel` (stop) function is invoked; `cancel` both marks the
    child done and removes the registration, and is idempotent.
  * Delivery of a matching signal while registered cancels the child context
    but does not by itself remove the registration; removal happens through
    `cancel`, which `Handle`'s waiter goroutine invokes once the child is done.
  * Matching follows `signal.Notify`: a delivered signal matches a
    registration for a non-empty set when it is a member of the set, and —
    per the documented rule "if no signals are provided, all incoming
    signals will be relayed" — matches a registration for the empty set
    always.
  * A matching signal delivered when no registration is installed receives the
    platform default behaviour (ordinarily process termination).
  * `context.WithCancel` (called inside `NotifyContext`) panics on a nil
    parent; we model the panic as `Option.none`.
-/

namespace Interrupt

/-- OS signal identifiers, modelled by their conventional signal numbers. -/
abbrev Sig := Nat

/-- `os.Interrupt` (SIGINT), the portable interrupt signal. -/
def interruptSig : Sig := 2

/-- `syscall.SIGTERM`, the POSIX termination signal. -/
def termSig : Sig := 15

/-- Modelled from the spec: the `Signals` package variable. Its defining
files (the platform-specific files of the repository) are not under `src/`;
only its uses and documentation are. Per the spec, on platforms with a
POSIX-style termination signal it contains both the portable interrupt signal
and that termination signal; otherwise only the portable interrupt signal.
The `posix` flag selects the platform. -/
def Signals (posix : Bool) : List Sig :=
  if posix then [interruptSig, termSig] else [interruptSig]

/-- Whether a delivered signal `s` matches a registration for the set
`sigs`, following Go `signal.Notify`: membership for a non-empty set, and
every signal when no signals were provided ("all incoming signals will be
relayed"). -/
def sigMatches (sigs : List Sig) (s : Sig) : Bool :=
  sigs.isEmpty || decide (s ∈ sigs)

/-- The state of one `Handle` call: its registration, its derived context,
the done status of its parent, its background waiter, and the per-instance
counts of signals intercepted versus left to platform default handling. -/
structure HState where
  /-- the signal set this call registered for -/
  sigs : List Sig
  /-- whether the parent context is done -/
  parentDone : Bool
  /-- whether the derived (child) context is done -/
  childDone : Bool
  /-- whether the signal-listener registration is still installed -/
  registered : Bool
  /-- whether the background waiter goroutine is still alive -/
  waiterAlive : Bool
  /-- matching signals intercepted by this registration -/
  intercepted : Nat
  /-- matching signals that fell through to platform default handling -/
  defaulted : Nat
deriving DecidableEq, Repr

/-- The state produced by `signal.NotifyContext(parent, sigs...)`: the
registration is installed and the child context is done iff the parent
already is. No waiter exists yet. -/
def notifyContext (sigs : List Sig) (parentDone : Bool) : HState :=
  { sigs := sigs
    parentDone := parentDone
    childDone := parentDone
    registered := true
    waiterAlive := false
    intercepted := 0
    defaulted := 0 }

/-- Spawning the background waiter goroutine (`go func() { <-ctx.Done();
cancel() }()`). -/
def spawnWaiter (st : HState) : HState :=
  { st with waiterAlive := true }

/-- The `cancel` (stop) function returned by `signal.NotifyContext`: marks
the child context done and removes the signal registration. -/
def cancel (st : HState) : HState :=
  { st with childDone := true, registered := false }

/-- `Handle`, generalised over the signal set it registers (the source always
passes `Signals`): derive the child context via `signal.NotifyContext`, spawn
the waiter goroutine, return the child immediately. -/
def handleWith (sigs : List Sig) (parentDone : Bool) : HState :=
  spawnWaiter (notifyContext sigs parentDone)

/-- `Handle` as in the source: registers exactly the `Signals` set. -/
def handle (posix : Bool) (parentDone : Bool) : HState :=
  handleWith (Signals posix) parentDone

/-- The reference implementation given in `Handle`'s documentation comment:
`ctx, cancel := signal.NotifyContext(ctx, interrupt.Signals...)` followed by
`go func() { <-ctx.Done(); cancel() }()`, returning `ctx`. -/
def handleSpec (posix : Bool) (parentDone : Bool) : HState :=
  spawnWaiter (notifyContext (Signals posix) parentDone)

/-- `Handle` on a possibly-nil parent context (`none` = nil): the parent is
forwarded unchecked to `signal.NotifyContext`, whose `context.WithCancel`
panics on a nil parent; the panic is modelled as `none`. -/
def handleOpt (posix : Bool) : Option Bool → Option HState
  | none => none
  | some parentDone => some (handle posix parentDone)

/-- Events that can affect the state of one `Handle` call after it returns. -/
inductive Event where
  /-- the parent context becomes done (its cancellation propagates to the
  child immediately) -/
  | parentCancel
  /-- an OS signal `s` is delivered to the process -/
  | signal (s : Sig)
  /-- the background waiter goroutine runs: it has observed the child
  context done, invokes `cancel`, and terminates itself -/
  | waiterRun
deriving DecidableEq, Repr

/-- The transition function. A matching signal (per `sigMatches`, so any
signal at all when the registered set is empty) delivered while the
registration is installed is intercepted and cancels the child context; a
matching signal delivered after the registration is removed falls through to
platform default handling. The waiter invokes `cancel` and terminates. -/
def step (st : HState) : Event → HState
  | .parentCancel => { st with parentDone := true, childDone := true }
  | .signal s =>
      if st.registered then
        if sigMatches st.sigs s then
          { st with childDone := true, intercepted := st.intercepted + 1 }
        else st
      else
        if sigMatches st.sigs s then
          { st with defaulted := st.defaulted + 1 }
        else st
  | .waiterRun => { cancel st with waiterAlive := false }

/-- Scheduling constraint: the waiter goroutine is blocked on
`<-ctx.Done()`, so it can only run while alive and once the child context is
done; the other events are external and always possible. -/
def enabled (st : HState) : Event → Bool
  | .waiterRun => st.waiterAlive && st.childDone
  | _ => true

/-- Run a trace of events from a state. -/
def run (st : HState) : List Event → HState
  | [] => st
  | e :: es => run (step st e) es

/-- A trace is a valid schedule from a state when every event is enabled
where it occurs. -/
def validFrom (st : HState) : List Event → Bool
  | [] => true
  | e :: es => enabled st e && validFrom (step st e) es

/-- An event that makes a derived context registered for `sigs` done:
cancellation of the parent, or delivery of a matching signal. -/
def triggers (sigs : List Sig) : Event → Bool
  | .parentCancel => true
  | .signal s => sigMatches sigs s
  | .waiterRun => false

/-- The cause through which one `step` can newly set the child's done flag:
parent cancellation, a matching signal intercepted by the installed
registration, or the explicit `cancel` trigger invoked by the waiter. -/
def doneCause (st : HState) : Event → Bool
  | .parentCancel => true
  | .signal s => st.registered && sigMatches st.sigs s
  | .waiterRun => true

/-- Basic sanity invariant of reachable states: the registration is only
ever removed by `cancel`, which also marks the child done. -/
def Inv (st : HState) : Prop :=
  st.registered = false → st.childDone = true

/-- A pair of `Handle` calls, for independence properties. -/
structure PairState where
  a : HState
  b : HState
deriving DecidableEq, Repr

/-- Events on a pair of `Handle` calls: an event local to either call, or a
process-wide signal delivery that reaches both registrations. -/
inductive PEvent where
  | onA (e : Event)
  | onB (e : Event)
  | deliver (s : Sig)
deriving DecidableEq, Repr

/-- The transition function for a pair of `Handle` calls: each call owns its
own context, registration and waiter; only process-wide signal delivery
touches both. -/
def pstep (p : PairState) : PEvent → PairState
  | .onA e => { p with a := step p.a e }
  | .onB e => { p with b := step p.b e }
  | .deliver s => { a := step p.a (.signal s), b := step p.b (.signal s) }

/-! ### Helper lemmas -/

/-- `step` never changes the signal set of a registration. -/
theorem sigs_step (st : HState) (e : Event) : (step st e).sigs = st.sigs := by
  cases e with
  | parentCancel => rfl
  | signal s =>
      simp only [step]
      by_cases hr : st.registered <;> by_cases hs : sigMatches st.sigs s = true <;>
        simp [hr, hs]
  | waiterRun => rfl

/-- `run` never changes the signal set of a registration. -/
theorem sigs_run (tr : List Event) (st : HState) : (run st tr).sigs = st.sigs := by
  induction tr generalizing st with
  | nil => rfl
  | cons e es ih => rw [run, ih, sigs_step]

/-- One `step` sets the child's done flag exactly when it was already set or
the event is one of the three done causes. -/
theorem childDone_step (st : HState) (e : Event) :
    (step st e).childDone = (st.childDone || doneCause st e) := by
  cases e with
  | parentCancel => simp [step, doneCause]
  | signal s =>
      simp only [step, doneCause]
      by_cases hr : st.registered <;> by_cases hs : sigMatches st.sigs s = true <;>
        simp [hr, hs]
  | waiterRun => simp [step, doneCause, cancel]

/-- The child's done flag is monotone across a single step. -/
theorem childDone_mono_step (st : HState) (e : Event) (h : st.childDone = true) :
    (step st e).childDone = true := by
  rw [childDone_step, h, Bool.true_or]

/-- The child's done flag is monotone across any trace. -/
theorem childDone_mono_run (tr : List Event) (st : HState) (h : st.childDone = true) :
    (run st tr).childDone = true := by
  induction tr generalizing st with
  | nil => exact h
  | cons e es ih => exact ih (step st e) (childDone_mono_step st e h)

/-- Once removed, a registration is never re-installed by a single step. -/
theorem registered_step (st : HState) (e : Event) (h : st.registered = false) :
    (step st e).registered = false := by
  cases e with
  | parentCancel => exact h
  | signal s =>
      simp only [step, h]
      by_cases hs : sigMatches st.sigs s = true <;> simp [hs, h]
  | waiterRun => rfl

/-- Once removed, a registration is never re-installed by any trace. -/
theorem registered_run (tr : List Event) (st : HState) (h : st.registered = false) :
    (run st tr).registered = false := by
  induction tr generalizing st with
  | nil => exact h
  | cons e es ih => exact ih (step st e) (registered_step st e h)

/-- One `step` preserves the invariant "unregistered implies done". -/
theorem inv_step (st : HState) (e : Event) (h : Inv st) : Inv (step st e) := by
  cases e with
  | parentCancel => intro _; simp [step]
  | signal s =>
      intro hreg
      have hr : st.registered = false := by
        simp only [step] at hreg
        by_cases hr : st.registered <;> by_cases hs : sigMatches st.sigs s = true <;>
          simp [hr, hs] at hreg ⊢
      have hc := h hr
      simp only [step, hr]
      by_cases hs : sigMatches st.sigs s = true <;> simp [hs, hc]
  | waiterRun => intro _; simp [step, cancel]

/-- Any trace preserves the invariant "unregistered implies done". -/
theorem inv_run (tr : List Event) (st : HState) (h : Inv st) : Inv (run st tr) := by
  induction tr generalizing st with
  | nil => exact h
  | cons e es ih => exact ih (step st e) (inv_step st e h)

/-- Under the invariant, and when the event is enabled, one `step` sets the
child's done flag exactly when it was set or the event is a trigger (parent
cancellation or matching signal). -/
theorem childDone_step_triggers (st : HState) (e : Event) (hinv : Inv st)
    (hen : enabled st e = true) :
    (step st e).childDone = (st.childDone || triggers st.sigs e) := by
  rw [childDone_step]
  cases e with
  | parentCancel => rfl
  | signal s =>
      simp only [doneCause, triggers]
      by_cases hr : st.registered
      · simp [hr]
      · have hc : st.childDone = true := hinv (by simpa using hr)
        simp [hr, hc]
  | waiterRun =>
      simp only [enabled, Bool.and_eq_true] at hen
      simp [doneCause, triggers, hen.2]

/-- Main characterisation: over any valid schedule, the derived context is
done exactly when it started done or some event of the trace is a trigger. -/
theorem childDone_run_triggers (tr : List Event) (st : HState) (hinv : Inv st)
    (hv : validFrom st tr = true) :
    (run st tr).childDone = (st.childDone || tr.any (triggers st.sigs)) := by
  induction tr generalizing st with
  | nil => simp [run]
  | cons e es ih =>
      simp only [validFrom, Bool.and_eq_true] at hv
      rw [run, ih (step st e) (inv_step st e hinv) hv.2, sigs_step,
        childDone_step_triggers st e hinv hv.1, List.any_cons, Bool.or_assoc]

/-- With an empty registered signal set, every signal delivery matches: per
Go `signal.Notify`, "if no signals are provided, all incoming signals will
be relayed". -/
theorem sigMatches_nil (s : Sig) : sigMatches [] s = true := rfl

/-- The state returned by `Handle` satisfies the sanity invariant. -/
theorem inv_handleWith (sigs : List Sig) (parentDone : Bool) :
    Inv (handleWith sigs parentDone) := by
  intro h
  simp [handleWith, spawnWaiter, notifyContext] at h

/-! ### Claim theorems -/

/-- Claim C1: for every parent context and every valid schedule of events,
the derived context returned by `Handle` is done exactly when the parent was
already done at the call, the parent was cancelled during the trace, or a
signal matching the registered set was delivered during the trace; with no
such event over any trace, however long, it stays not-done. -/
theorem c1_done_iff_parent_or_signal (posix parentDone : Bool) (tr : List Event)
    (hv : validFrom (handle posix parentDone) tr = true) :
    (run (handle posix parentDone) tr).childDone
      = (parentDone || tr.any (triggers (Signals posix))) := by
  have h := childDone_run_triggers tr (handle posix parentDone)
    (inv_handleWith (Signals posix) parentDone) hv
  simpa [handle, handleWith, spawnWaiter, notifyContext] using h

/-- Witness for C1: on a POSIX platform with a not-done parent, delivering
SIGINT and then running the waiter is a valid schedule after which the
derived context is done, matching the trigger characterisation. -/
theorem c1_witness :
    validFrom (handle true false) [Event.signal 2, Event.waiterRun] = true ∧
    (run (handle true false) [Event.signal 2, Event.waiterRun]).childDone
      = (false || [Event.signal 2, Event.waiterRun].any (triggers (Signals true))) :=
  ⟨by decide, c1_done_iff_parent_or_signal true false [Event.signal 2, Event.waiterRun]
    (by decide)⟩

/-- Claim C2: the registration is installed when `Handle` returns; under a
valid schedule it can only be removed by the waiter's `cancel`, and only once
the derived context is done; once removed it is never re-installed (so it is
destroyed at most once); once the context is done and the waiter is alive,
the waiter is enabled and its run removes the registration; and after
removal a matching signal is no longer intercepted and falls through to
platform default handling. -/
theorem c2_registration_lifecycle :
    (∀ posix parentDone : Bool, (handle posix parentDone).registered = true) ∧
    (∀ (st : HState) (e : Event), enabled st e = true → st.registered = true →
      (step st e).registered = false → st.childDone = true ∧ e = Event.waiterRun) ∧
    (∀ (st : HState) (e : Event), st.registered = false → (step st e).registered = false) ∧
    (∀ st : HState, st.waiterAlive = true → st.childDone = true →
      enabled st Event.waiterRun = true ∧ (step st Event.waiterRun).registered = false) ∧
    (∀ (st : HState) (s : Sig), st.registered = false →
      (step st (Event.signal s)).intercepted = st.intercepted) ∧
    (∀ (st : HState) (s : Sig), st.registered = false → s ∈ st.sigs →
      (step st (Event.signal s)).defaulted = st.defaulted + 1) := by
  refine ⟨fun _ _ => rfl, ?_, registered_step, ?_, ?_, ?_⟩
  · intro st e hen hr hr'
    cases e with
    | parentCancel => exact absurd hr' (by simp [step, hr])
    | signal s =>
        exfalso
        simp only [step, hr, if_true] at hr'
        by_cases hs : sigMatches st.sigs s = true <;> simp [hs, hr] at hr'
    | waiterRun =>
        simp only [enabled, Bool.and_eq_true] at hen
        exact ⟨hen.2, rfl⟩
  · intro st hw hc
    exact ⟨by simp [enabled, hw, hc], rfl⟩
  · intro st s hr
    simp only [step, hr]
    by_cases hs : sigMatches st.sigs s = true <;> simp [hs]
  · intro st s hr hs
    simp [step, hr, sigMatches, hs]

/-- Witness for C2, at concrete states reached from `Handle` on a POSIX
platform: after SIGINT the context is done and the still-live waiter is
enabled and removes the registration; afterwards the registration stays
removed, and a SIGTERM is not intercepted but is counted as platform
default handling. -/
theorem c2_witness :
    (handle true false).registered = true ∧
    ((run (handle true false) [Event.signal 2]).childDone = true ∧
      Event.waiterRun = Event.waiterRun) ∧
    (step (run (handle true false) [Event.signal 2, Event.waiterRun])
      Event.parentCancel).registered = false ∧
    (enabled (run (handle true false) [Event.signal 2]) Event.waiterRun = true ∧
      (step (run (handle true false) [Event.signal 2]) Event.waiterRun).registered = false) ∧
    (step (run (handle true false) [Event.signal 2, Event.waiterRun])
        (Event.signal 15)).intercepted
      = (run (handle true false) [Event.signal 2, Event.waiterRun]).intercepted ∧
    (step (run (handle true false) [Event.signal 2, Event.waiterRun])
        (Event.signal 15)).defaulted
      = (run (handle true false) [Event.signal 2, Event.waiterRun]).defaulted + 1 :=
  ⟨c2_registration_lifecycle.1 true false,
   c2_registration_lifecycle.2.1 (run (handle true false) [Event.signal 2]) Event.waiterRun
     (by decide) (by decide) (by decide),
   c2_registration_lifecycle.2.2.1 (run (handle true false) [Event.signal 2, Event.waiterRun])
     Event.parentCancel (by decide),
   c2_registration_lifecycle.2.2.2.1 (run (handle true false) [Event.signal 2])
     (by decide) (by decide),
   c2_registration_lifecycle.2.2.2.2.1 (run (handle true false) [Event.signal 2, Event.waiterRun])
     15 (by decide),
   c2_registration_lifecycle.2.2.2.2.2 (run (handle true false) [Event.signal 2, Event.waiterRun])
     15 (by decide) (by decide)⟩

/-- Claim C3: the derived context starts Active (not done) when the parent is
not done; a step sets the done flag exactly when it was already set or the
event is a done cause (parent cancellation, a matching signal intercepted by
the installed registration, or the explicit `cancel` trigger); and once done
it stays done across every later trace. -/
theorem c3_done_monotonic_terminal :
    (∀ posix : Bool, (handle posix false).childDone = false) ∧
    (∀ (st : HState) (e : Event),
      (step st e).childDone = (st.childDone || doneCause st e)) ∧
    (∀ (st : HState) (tr : List Event), st.childDone = true →
      (run st tr).childDone = true) :=
  ⟨fun _ => rfl, childDone_step, fun st tr h => childDone_mono_run tr st h⟩

/-- Witness for C3: a context cancelled by its parent stays done after a
later signal and waiter run. -/
theorem c3_witness :
    (run (step (handle true false) Event.parentCancel)
      [Event.signal 15, Event.waiterRun]).childDone = true :=
  c3_done_monotonic_terminal.2.2 (step (handle true false) Event.parentCancel)
    [Event.signal 15, Event.waiterRun] (by decide)

/-- Claim C4: the cleanup/unregister path (`cancel`) is idempotent: a second
invocation is a no-op, so invoking it once via signal-then-waiter and again
later has the same effect as one invocation; it produces no error (it is a
total function) and touches nothing but the done flag and the registration,
so nothing is double-freed. -/
theorem c4_cleanup_idempotent :
    (∀ st : HState, cancel (cancel st) = cancel st) ∧
    (∀ st : HState, step (step st Event.waiterRun) Event.waiterRun
      = step st Event.waiterRun) ∧
    (∀ st : HState, (cancel st).intercepted = st.intercepted ∧
      (cancel st).defaulted = st.defaulted ∧
      (cancel st).sigs = st.sigs ∧
      (cancel st).parentDone = st.parentDone) :=
  ⟨fun _ => rfl, fun _ => rfl, fun _ => ⟨rfl, rfl, rfl, rfl⟩⟩

/-- Claim C5: `Handle` on any valid parent returns (it is a total function):
the result is non-null, and at the moment of return the derived context's
done flag simply mirrors the parent, the registration is installed, the
waiter has been spawned but none of its work (unregistration) has been
awaited or applied, and no signal has been processed. -/
theorem c5_returns_synchronously (posix parentDone : Bool) :
    handleOpt posix (some parentDone) = some (handle posix parentDone) ∧
    (handle posix parentDone).childDone = parentDone ∧
    (handle posix parentDone).registered = true ∧
    (handle posix parentDone).waiterAlive = true ∧
    (handle posix parentDone).intercepted = 0 ∧
    (handle posix parentDone).defaulted = 0 :=
  ⟨rfl, rfl, rfl, rfl, rfl, rfl⟩

/-- Claim C6: an event local to one `Handle` call (including cancelling its
derived context) leaves the other call's state untouched, and no child-side
event — signal delivery, waiter run, or explicit `cancel` — ever marks the
parent done: propagation is one-directional. -/
theorem c6_independence :
    (∀ (p : PairState) (e : Event), (pstep p (PEvent.onA e)).b = p.b) ∧
    (∀ (p : PairState) (e : Event), (pstep p (PEvent.onB e)).a = p.a) ∧
    (∀ (st : HState) (s : Sig),
      (step st (Event.signal s)).parentDone = st.parentDone) ∧
    (∀ st : HState, (step st Event.waiterRun).parentDone = st.parentDone) ∧
    (∀ st : HState, (cancel st).parentDone = st.parentDone) := by
  refine ⟨fun _ _ => rfl, fun _ _ => rfl, ?_, fun _ => rfl, fun _ => rfl⟩
  intro st s
  simp only [step]
  by_cases hr : st.registered <;> by_cases hs : sigMatches st.sigs s = true <;>
    simp [hr, hs]

/-- Counterexample to C7 as stated: with an empty registered signal set and
a never-done parent, a registration driven by `signal.Notify` relays every
incoming signal, so delivering one signal (here SIGINT) makes the derived
context done while its parent is not — it is not a plain pass-through of
the parent. -/
theorem c7_counterexample :
    validFrom (handleWith [] false) [Event.signal 2] = true ∧
    (run (handleWith [] false) [Event.signal 2]).childDone = true ∧
    (run (handleWith [] false) [Event.signal 2]).parentDone = false := by
  decide

/-- Claim C7 as amended: `Handle` cannot fail on a valid parent (it always
returns a context), and it performs no validation of its own; registering an
empty signal set is legal, but then the platform relays all incoming
signals, so over any valid schedule the derived context is done exactly when
the parent was done at the call, the parent was cancelled during the trace,
or any signal at all was delivered during the trace — not a plain
pass-through of the parent. -/
theorem c7_no_errors_empty_relays_all :
    (∀ posix parentDone : Bool, (handleOpt posix (some parentDone)).isSome = true) ∧
    (∀ s : Sig, triggers [] (Event.signal s) = true) ∧
    (∀ (parentDone : Bool) (tr : List Event),
      validFrom (handleWith [] parentDone) tr = true →
      (run (handleWith [] parentDone) tr).childDone
        = (parentDone || tr.any (triggers []))) := by
  refine ⟨fun _ _ => rfl, fun s => rfl, ?_⟩
  intro parentDone tr hv
  have h := childDone_run_triggers tr (handleWith [] parentDone)
    (inv_handleWith [] parentDone) hv
  simpa [handleWith, spawnWaiter, notifyContext] using h

/-- Witness for the amended C7: with an empty signal set and a not-done
parent, delivering SIGINT is a trigger, after which the derived context is
done. -/
theorem c7_amended_witness :
    validFrom (handleWith [] false) [Event.signal 2] = true ∧
    (run (handleWith [] false) [Event.signal 2]).childDone
      = (false || [Event.signal 2].any (triggers [])) :=
  ⟨by decide, c7_no_errors_empty_relays_all.2.2 false [Event.signal 2] (by decide)⟩

/-- Claim C8 (the `Signals` variable is modelled from the spec, since its
defining platform files are not under `src/`): the signal set is a
process-wide constant — a fixed list per platform — which on POSIX-style
platforms contains both the portable interrupt signal and the termination
signal, and elsewhere only the portable interrupt signal. -/
theorem c8_signals_platform_constant :
    Signals true = [interruptSig, termSig] ∧
    Signals false = [interruptSig] ∧
    (∀ posix : Bool, interruptSig ∈ Signals posix) ∧
    decide (termSig ∈ Signals false) = false :=
  ⟨rfl, rfl, fun posix => by cases posix <;> simp [Signals], by decide⟩

/-- Claim C9: `Handle` coincides with the reference implementation in its own
documentation comment — `signal.NotifyContext(ctx, Signals...)` plus a
goroutine that waits on the derived context's Done channel and then invokes
`cancel` — both as returned states and observationally over every trace. -/
theorem c9_handle_equals_reference (posix parentDone : Bool) (tr : List Event) :
    handle posix parentDone = handleSpec posix parentDone ∧
    run (handle posix parentDone) tr = run (handleSpec posix parentDone) tr :=
  ⟨rfl, rfl⟩

/-- Claim C10: a nil parent is forwarded unchecked to the platform
context-derivation mechanism, which rejects it (modelled as `none`, the
panic); every non-nil parent yields a context. -/
theorem c10_nil_parent_panics :
    (∀ posix : Bool, handleOpt posix none = none) ∧
    (∀ posix parentDone : Bool,
      handleOpt posix (some parentDone) = some (handle posix parentDone)) :=
  ⟨fun _ => rfl, fun _ _ => rfl⟩

end Interrupt
